import Mathlib

/-!
# Verification of the layer-keyed association cache

Shallow embedding of the layer association machinery of ITK-SNAP:

* `resync`, `resyncE`, `runResyncs` model the Keyed Association Store
  (`LayerAssociation`); its implementation file is not part of the reviewed
  sources, so these are modelled from the specification's contract.
* `SetLayer`, `OnUpdate`, `GetProperties` are translated line by line from
  `src/GUI/Model/AbstractLayerAssociatedModel.h` (the Single-Selection
  Overlay).

Layer identities are opaque comparable handles, modelled as `Nat` (`none`
plays the role of the NULL pointer).  Side effects (factory create/dispose,
RegisterWithLayer/UnRegisterFromLayer, ActiveLayerChangedEvent) are made
explicit as an `Effect` trace returned by each operation.
-/

namespace ItkSnap

/-- Opaque layer identity: a non-owning comparable handle. -/
abbrev Key := Nat

/-- An association entry: a key together with its lazily created value.
The registration token of the spec lives in the concrete subclass's
properties; it is not needed to settle the claims. -/
structure Entry (V : Type) where
  key : Key
  value : V
  deriving Repr, DecidableEq

/-- Observable side effects of store/overlay operations, in call order:
factory construction and disposal, the RegisterWithLayer /
UnRegisterFromLayer hooks, and the ActiveLayerChangedEvent signal. -/
inductive Effect where
  | createP (k : Key)
  | disposeP (k : Key)
  | register (k : Key)
  | unregister (k : Key)
  | activeLayerChanged
  deriving Repr, DecidableEq

/-- `LayerAssociation::find`: the first entry with the given key. -/
def findEntry {V : Type} (E : List (Entry V)) (k : Key) : Option (Entry V) :=
  E.find? (fun e => decide (e.key = k))

/-- `find(k) != end()`: the store has an entry for `k`. -/
def containsKey {V : Type} (E : List (Entry V)) (k : Key) : Bool :=
  (findEntry E k).isSome

/-- The C++ `find(m_Layer) != end()` test, where `m_Layer` may be NULL;
`NULL` is never a key of the store. -/
def containsLayer {V : Type} (E : List (Entry V)) : Option Key → Bool
  | some k => containsKey E k
  | none => false

/-- Modelled from the spec: `LayerAssociation::Update` (the store's resync;
`LayerAssociation.h` is not among the reviewed sources).  "For each key in
`authoritative_keys` not currently present, constructs a value via the
factory's `create(key)` and inserts it.  For each key currently present but
absent from `authoritative_keys`, removes the entry after calling the
factory's `dispose`.  Afterward, the store's key set equals the input set
exactly, in the input's order."  Returns the new entry list, the keys
passed to `create`, and the keys passed to `dispose`. -/
def resync {V : Type} (create : Key → V) (E : List (Entry V)) (S : List Key) :
    List (Entry V) × List Key × List Key :=
  (S.map (fun k =>
      match findEntry E k with
      | some e => e
      | none => ⟨k, create k⟩),
   S.filter (fun k => (findEntry E k).isNone),
   (E.map Entry.key).filter (fun k => decide (k ∉ S)))

/-- The effect trace of one resync: the create calls, then the dispose
calls. -/
def resyncLog (created disposed : List Key) : List Effect :=
  created.map Effect.createP ++ disposed.map Effect.disposeP

/-- The Keyed Association Store as held by the overlay: the entry list (in
authoritative order) plus the image-data source it resyncs against
(`SetImageData` stores it, `Update` reconciles against it). -/
structure LayerAssociation (V : Type) where
  entries : List (Entry V)
  imageData : List Key
  deriving Repr, DecidableEq

/-- State of `AbstractLayerAssociatedModel`: the active layer `m_Layer`
(`none` = NULL) and the properties store `m_LayerProperties`. -/
structure ModelState (V : Type) where
  layer : Option Key
  props : LayerAssociation V
  deriving Repr, DecidableEq

/-- `AbstractLayerAssociatedModel::SetLayer`, line by line:
`m_LayerProperties.Update()`; if `find(m_Layer) != end()` then
`UnRegisterFromLayer(m_Layer)`; `m_Layer = layer`; if `m_Layer` then
`RegisterWithLayer(m_Layer)`; `InvokeEvent(ActiveLayerChangedEvent())`.
Returns the new state and the effect trace in call order. -/
def SetLayer {V : Type} (create : Key → V) (s : ModelState V)
    (layer : Option Key) : ModelState V × List Effect :=
  let r := resync create s.props.entries s.props.imageData
  let unregLog : List Effect :=
    match s.layer with
    | some k => if containsKey r.1 k then [Effect.unregister k] else []
    | none => []
  let regLog : List Effect :=
    match layer with
    | some k => [Effect.register k]
    | none => []
  (⟨layer, ⟨r.1, s.props.imageData⟩⟩,
   resyncLog r.2.1 r.2.2 ++ unregLog ++ regLog ++ [Effect.activeLayerChanged])

/-- `AbstractLayerAssociatedModel::OnUpdate`: if the event bucket has a
`LayerChangeEvent` then `SetImageData(GetCurrentImageData())`;
`m_LayerProperties.Update()`; and if `find(m_Layer) == end()` then
`SetLayer(NULL)`.  Otherwise nothing happens. -/
def OnUpdate {V : Type} (create : Key → V) (hasLayerChange : Bool)
    (currentImageData : List Key) (s : ModelState V) :
    ModelState V × List Effect :=
  if hasLayerChange then
    let r := resync create s.props.entries currentImageData
    let s1 : ModelState V := ⟨s.layer, ⟨r.1, currentImageData⟩⟩
    let log1 := resyncLog r.2.1 r.2.2
    if containsLayer r.1 s.layer then (s1, log1)
    else
      let r2 := SetLayer create s1 none
      (r2.1, log1 ++ r2.2)
  else (s, [])

/-- `AbstractLayerAssociatedModel::GetProperties`: `assert(m_Layer)` (a
failed assertion is modelled as `none`), then the store lookup
`m_LayerProperties[m_Layer]` (`NotFound` is also `none`). -/
def GetProperties {V : Type} (s : ModelState V) : Option V :=
  match s.layer with
  | none => none
  | some k => (findEntry s.props.entries k).map Entry.value

/-- The selection invariant of the spec, decidably: if the active layer is
non-null, it has an entry in the store. -/
def invB {V : Type} (s : ModelState V) : Bool :=
  match s.layer with
  | none => true
  | some k => containsKey s.props.entries k

/-- Number of occurrences of an effect in a trace. -/
def countEff (log : List Effect) (x : Effect) : Nat :=
  log.countP (fun e => decide (e = x))

/-- Modelled from the spec: resync with a fallible factory
(`LayerAssociation.h` is not among the reviewed sources).  `create`
returning `none` is the `ResourceExhausted` failure; the failed key is
skipped (never inserted), processing of the remaining keys continues
(graceful degradation), previously successful insertions are retained, and
the error is surfaced through the returned flag. -/
def resyncE {V : Type} (create : Key → Option V) (E : List (Entry V)) :
    List Key → List (Entry V) × Bool
  | [] => ([], false)
  | k :: rest =>
    let r := resyncE create E rest
    match findEntry E k with
    | some e => (e :: r.1, r.2)
    | none =>
      match create k with
      | some v => (⟨k, v⟩ :: r.1, r.2)
      | none => (r.1, true)

/-- A sequence of structural-change resyncs of the store, starting from a
given entry list, accumulating the effect trace. -/
def runResyncs {V : Type} (create : Key → V) (E : List (Entry V)) :
    List (List Key) → List (Entry V) × List Effect
  | [] => (E, [])
  | S :: rest =>
    let r := resync create E S
    let t := runResyncs create r.1 rest
    (t.1, resyncLog r.2.1 r.2.2 ++ t.2)

/-- The create/dispose events concerning one key, in trace order:
`true` = create, `false` = dispose. -/
def kEvents (k : Key) (log : List Effect) : List Bool :=
  log.filterMap (fun e =>
    match e with
    | Effect.createP j => if j = k then some true else none
    | Effect.disposeP j => if j = k then some false else none
    | _ => none)

/-- The rising/falling edges of a membership history, given the current
presence: a rising edge records a create, a falling edge a dispose. -/
def edgeEvents : Bool → List Bool → List Bool
  | _, [] => []
  | cur, m :: rest =>
    (if m && !cur then [true]
     else if !m && cur then [false]
     else []) ++ edgeEvents m rest

/-! ## Basic lemmas about the store -/

theorem findEntry_key {V : Type} {E : List (Entry V)} {k : Key} {e : Entry V}
    (h : findEntry E k = some e) : e.key = k := by
  have := List.find?_some h
  simpa using this

theorem containsKey_iff {V : Type} {E : List (Entry V)} {k : Key} :
    containsKey E k = true ↔ k ∈ E.map Entry.key := by
  simp only [containsKey, findEntry, List.find?_isSome, List.mem_map]
  constructor
  · rintro ⟨e, he, hk⟩
    exact ⟨e, he, by simpa using hk⟩
  · rintro ⟨e, he, hk⟩
    exact ⟨e, he, by simpa using hk⟩

theorem keys_resync {V : Type} (create : Key → V) (E : List (Entry V))
    (S : List Key) : ((resync create E S).1).map Entry.key = S := by
  show (S.map _).map Entry.key = S
  rw [List.map_map]
  induction S with
  | nil => rfl
  | cons a t ih =>
    simp only [List.map_cons, Function.comp_apply]
    rw [ih]
    congr 1
    cases h : findEntry E a with
    | none => rfl
    | some e => exact findEntry_key h

theorem containsKey_resync {V : Type} (create : Key → V) (E : List (Entry V))
    (S : List Key) (k : Key) :
    containsKey (resync create E S).1 k = decide (k ∈ S) := by
  by_cases h : k ∈ S
  · simp only [h, decide_eq_true_eq, decide_True]
    rw [containsKey_iff, keys_resync]
    exact h
  · simp only [h, decide_False]
    rw [Bool.eq_false_iff]
    intro hc
    rw [containsKey_iff, keys_resync] at hc
    exact h hc

theorem created_resync_nil {V : Type} {create : Key → V} {E : List (Entry V)}
    {S : List Key} (h : ∀ k ∈ S, containsKey E k = true) :
    (resync create E S).2.1 = [] := by
  apply List.filter_eq_nil_iff.mpr
  intro k hk
  have := h k hk
  simp only [containsKey] at this
  simp [Option.isNone_iff_eq_none, Option.isSome_iff_exists] at this ⊢
  obtain ⟨e, he⟩ := this
  simp [he]

theorem disposed_resync_nil {V : Type} {create : Key → V} {E : List (Entry V)}
    {S : List Key} (h : ∀ k ∈ E.map Entry.key, k ∈ S) :
    (resync create E S).2.2 = [] := by
  apply List.filter_eq_nil_iff.mpr
  intro k hk
  simpa using h k hk

theorem mem_created_resync {V : Type} {create : Key → V} {E : List (Entry V)}
    {S : List Key} {k : Key} :
    k ∈ (resync create E S).2.1 ↔ k ∈ S ∧ containsKey E k = false := by
  show k ∈ S.filter _ ↔ _
  rw [List.mem_filter]
  constructor
  · rintro ⟨h1, h2⟩
    refine ⟨h1, ?_⟩
    simp only [containsKey]
    simpa [Option.isNone_iff_eq_none, Option.isSome_iff_exists] using h2
  · rintro ⟨h1, h2⟩
    refine ⟨h1, ?_⟩
    simp only [containsKey] at h2
    simpa [Option.isNone_iff_eq_none] using h2

theorem mem_disposed_resync {V : Type} {create : Key → V} {E : List (Entry V)}
    {S : List Key} {k : Key} :
    k ∈ (resync create E S).2.2 ↔ containsKey E k = true ∧ k ∉ S := by
  show k ∈ (E.map Entry.key).filter _ ↔ _
  rw [List.mem_filter, containsKey_iff]
  simp

theorem resync_resync_created {V : Type} (create : Key → V) (E : List (Entry V))
    (S : List Key) : (resync create (resync create E S).1 S).2.1 = [] := by
  apply created_resync_nil
  intro k hk
  rw [containsKey_resync]
  simpa using hk

theorem resync_resync_disposed {V : Type} (create : Key → V) (E : List (Entry V))
    (S : List Key) : (resync create (resync create E S).1 S).2.2 = [] := by
  apply disposed_resync_nil
  intro k hk
  rwa [keys_resync] at hk

/-! ## Lemmas about effect traces -/

theorem countEff_append (l1 l2 : List Effect) (x : Effect) :
    countEff (l1 ++ l2) x = countEff l1 x + countEff l2 x := by
  simp [countEff, List.countP_append]

theorem countEff_map_zero {l : List Key} {f : Key → Effect} {x : Effect}
    (h : ∀ j, f j ≠ x) : countEff (l.map f) x = 0 := by
  simp only [countEff]
  apply List.countP_eq_zero.mpr
  rintro e he
  simp only [List.mem_map] at he
  obtain ⟨j, _, rfl⟩ := he
  simp [h j]

theorem countEff_resyncLog_unregister (cr dp : List Key) (k : Key) :
    countEff (resyncLog cr dp) (Effect.unregister k) = 0 := by
  rw [resyncLog, countEff_append, countEff_map_zero (by intro j; simp),
    countEff_map_zero (by intro j; simp)]

theorem countEff_resyncLog_register (cr dp : List Key) (k : Key) :
    countEff (resyncLog cr dp) (Effect.register k) = 0 := by
  rw [resyncLog, countEff_append, countEff_map_zero (by intro j; simp),
    countEff_map_zero (by intro j; simp)]

theorem countEff_resyncLog_event (cr dp : List Key) :
    countEff (resyncLog cr dp) Effect.activeLayerChanged = 0 := by
  rw [resyncLog, countEff_append, countEff_map_zero (by intro j; simp),
    countEff_map_zero (by intro j; simp)]

theorem unregister_not_mem_resyncLog (cr dp : List Key) (k : Key) :
    Effect.unregister k ∉ resyncLog cr dp := by
  intro h
  rcases List.mem_append.mp h with h1 | h1 <;>
    · simp only [List.mem_map] at h1
      obtain ⟨j, _, hj⟩ := h1
      exact Effect.noConfusion hj

theorem countEff_nil (x : Effect) : countEff [] x = 0 := rfl

theorem countEff_single_eq (x : Effect) : countEff [x] x = 1 := by
  simp [countEff]

theorem countEff_single_ne {x y : Effect} (h : x ≠ y) : countEff [x] y = 0 := by
  simp [countEff, h]

/-! ## Claims -/

/-- C10: a call to `OnUpdate` whose event bucket contains no
`LayerChangeEvent` leaves the overlay's state entirely unchanged — active
layer, properties store and image-data source — and produces no attach,
detach, create or dispose calls and no signal (empty effect trace). -/
theorem c10_on_update_without_layer_change_is_frame {V : Type}
    (create : Key → V) (currentImageData : List Key) (s : ModelState V) :
    OnUpdate create false currentImageData s = (s, []) := rfl

/-- C5: `GetProperties` returns nothing (the `assert(m_Layer)` fails, the
`NoActiveSelection` case) when the overlay is Unselected, and returns the
stored properties value for `k` when the overlay is `Selected(k)` and the
store holds an entry for `k`. -/
theorem c5_get_properties_selection {V : Type} (s : ModelState V) :
    (s.layer = none → GetProperties s = none) ∧
    (∀ k e, s.layer = some k → findEntry s.props.entries k = some e →
      GetProperties s = some e.value) := by
  constructor
  · intro h
    simp [GetProperties, h]
  · intro k e h1 h2
    simp [GetProperties, h1, h2]

/-- Witness for C5 at concrete states: Unselected yields no value; with
layer 1 selected and value 5 stored for it, the stored value is returned. -/
theorem c5_get_properties_selection_witness :
    GetProperties (⟨none, ⟨[⟨1, 5⟩], [1]⟩⟩ : ModelState Nat) = none ∧
    GetProperties (⟨some 1, ⟨[⟨1, 5⟩], [1]⟩⟩ : ModelState Nat) = some 5 :=
  ⟨(c5_get_properties_selection _).1 rfl,
   (c5_get_properties_selection _).2 1 ⟨1, 5⟩ rfl rfl⟩

/-- Counterexample to C1 as stated: with layer 1 selected, an entry for it
in the store, and a structural change to the empty authoritative set,
`OnUpdate` does land in the Unselected state but performs ZERO
`UnRegisterFromLayer` calls, not exactly one: the resync purges the stale
entry first, so `SetLayer(NULL)`'s membership test fails and the detach is
skipped (the code's comment: "the old layer may have already been
destroyed"). -/
theorem c1_counterexample :
    (OnUpdate (fun _ => 0) true []
        (⟨some 1, ⟨[⟨1, 0⟩], [1]⟩⟩ : ModelState Nat)).1.layer = none ∧
    countEff (OnUpdate (fun _ => 0) true []
        (⟨some 1, ⟨[⟨1, 0⟩], [1]⟩⟩ : ModelState Nat)).2
      (Effect.unregister 1) = 0 ∧
    ¬ countEff (OnUpdate (fun _ => 0) true []
        (⟨some 1, ⟨[⟨1, 0⟩], [1]⟩⟩ : ModelState Nat)).2
      (Effect.unregister 1) = 1 := by decide

/-- Counterexample to C2 as stated: starting Unselected with authoritative
set `[1]`, two consecutive `SetLayer(1)` calls produce TWO
`RegisterWithLayer(1)` calls in total (not one), and the second call does
perform an `UnRegisterFromLayer(1)` and does emit another
`ActiveLayerChangedEvent`: `SetLayer` has no `key == current` early
return. -/
theorem c2_counterexample :
    countEff ((SetLayer (fun _ => 0)
          (⟨none, ⟨[], [1]⟩⟩ : ModelState Nat) (some 1)).2 ++
        (SetLayer (fun _ => 0)
          (SetLayer (fun _ => 0)
            (⟨none, ⟨[], [1]⟩⟩ : ModelState Nat) (some 1)).1 (some 1)).2)
      (Effect.register 1) = 2 ∧
    countEff (SetLayer (fun _ => 0)
        (SetLayer (fun _ => 0)
          (⟨none, ⟨[], [1]⟩⟩ : ModelState Nat) (some 1)).1 (some 1)).2
      (Effect.unregister 1) = 1 ∧
    countEff (SetLayer (fun _ => 0)
        (SetLayer (fun _ => 0)
          (⟨none, ⟨[], [1]⟩⟩ : ModelState Nat) (some 1)).1 (some 1)).2
      Effect.activeLayerChanged = 1 := by decide

/-- Counterexample to C3 as stated: when the structural change removes the
selected layer 1, the effect trace of `OnUpdate` contains the factory
disposal of layer 1's entry but NO `UnRegisterFromLayer(1)` at all — the
entry is disposed first and the detach is skipped, exactly the situation
the claim says never happens. -/
theorem c3_counterexample :
    Effect.disposeP 1 ∈ (OnUpdate (fun _ => 0) true []
      (⟨some 1, ⟨[⟨1, 0⟩], [1]⟩⟩ : ModelState Nat)).2 ∧
    Effect.unregister 1 ∉ (OnUpdate (fun _ => 0) true []
      (⟨some 1, ⟨[⟨1, 0⟩], [1]⟩⟩ : ModelState Nat)).2 := by decide

/-- Counterexample to C4 as stated: from the Unselected state with empty
store and empty authoritative set (which satisfies the invariant),
`SetLayer(1)` — layer 1 not being in the authoritative set — leaves the
overlay with an active layer that has no entry in the store: `SetLayer`
never validates its argument against the store. -/
theorem c4_counterexample :
    invB (⟨none, ⟨[], []⟩⟩ : ModelState Nat) = true ∧
    invB (SetLayer (fun _ => 0)
      (⟨none, ⟨[], []⟩⟩ : ModelState Nat) (some 1)).1 = false := by decide

/-- C1 (amended): for every state `Selected(k)`, `OnUpdate` with a
`LayerChangeEvent` and `k` absent from the new authoritative set results in
state Unselected with ZERO `UnRegisterFromLayer(k)` calls — the resync
purges the stale entry before `SetLayer(NULL)` tests membership, so the
detach is skipped — and exactly one (hence no more than one)
`ActiveLayerChangedEvent` emitted. -/
theorem c1_selection_reset_on_staleness {V : Type} (create : Key → V)
    (s : ModelState V) (S : List Key) (k : Key)
    (hsel : s.layer = some k) (hstale : k ∉ S) :
    (OnUpdate create true S s).1.layer = none ∧
    countEff (OnUpdate create true S s).2 (Effect.unregister k) = 0 ∧
    countEff (OnUpdate create true S s).2 Effect.activeLayerChanged = 1 := by
  have hc1 : containsKey (resync create s.props.entries S).1 k = false := by
    rw [containsKey_resync]
    simpa using hstale
  have hc2 : containsKey
      (resync create (resync create s.props.entries S).1 S).1 k = false := by
    rw [containsKey_resync]
    simpa using hstale
  simp only [OnUpdate, SetLayer, if_true, hsel, containsLayer, hc1, hc2,
    Bool.false_eq_true, if_false]
  refine ⟨trivial, ?_, ?_⟩
  · simp only [countEff_append, countEff_resyncLog_unregister, countEff_nil,
      countEff_single_ne (show Effect.activeLayerChanged ≠ Effect.unregister k by simp)]
  · simp only [countEff_append, countEff_resyncLog_event, countEff_nil,
      countEff_single_eq]

/-- Witness for C1: layer 1 selected with an entry, structural change to
the empty set; the overlay lands Unselected with zero detaches and one
signal. -/
theorem c1_selection_reset_on_staleness_witness :
    ((1 : Key) ∉ ([] : List Key)) ∧
    ((OnUpdate (fun _ => 5) true []
        (⟨some 1, ⟨[⟨1, 5⟩], [1]⟩⟩ : ModelState Nat)).1.layer = none ∧
     countEff (OnUpdate (fun _ => 5) true []
        (⟨some 1, ⟨[⟨1, 5⟩], [1]⟩⟩ : ModelState Nat)).2
       (Effect.unregister 1) = 0 ∧
     countEff (OnUpdate (fun _ => 5) true []
        (⟨some 1, ⟨[⟨1, 5⟩], [1]⟩⟩ : ModelState Nat)).2
       Effect.activeLayerChanged = 1) :=
  ⟨by decide,
   c1_selection_reset_on_staleness (fun _ => 5)
     (⟨some 1, ⟨[⟨1, 5⟩], [1]⟩⟩ : ModelState Nat) [] 1 rfl (by decide)⟩

/-- C2 (amended): `SetLayer(k)` when `k` is already the current layer is
NOT a no-op: with the store in sync with the image data and holding an
entry for `k`, the call unregisters `k`, registers it again, and emits
another `ActiveLayerChangedEvent` — trace exactly
`[unregister k, register k, activeLayerChanged]`.  Hence two consecutive
`SetLayer(k)` calls produce two attach calls with a detach between them, so
`k` never holds more than one concurrent registration, which is what the
code's comment actually promises. -/
theorem c2_reselect_not_noop {V : Type} (create : Key → V) (s : ModelState V)
    (k : Key) (hsel : s.layer = some k)
    (hsync : s.props.entries.map Entry.key = s.props.imageData)
    (hmem : k ∈ s.props.imageData) :
    (SetLayer create s (some k)).1.layer = some k ∧
    (SetLayer create s (some k)).2 =
      [Effect.unregister k, Effect.register k, Effect.activeLayerChanged] := by
  have hcr : (resync create s.props.entries s.props.imageData).2.1 = [] := by
    apply created_resync_nil
    intro j hj
    rw [containsKey_iff, hsync]
    exact hj
  have hdp : (resync create s.props.entries s.props.imageData).2.2 = [] := by
    apply disposed_resync_nil
    intro j hj
    rw [hsync] at hj
    exact hj
  have hc : containsKey
      (resync create s.props.entries s.props.imageData).1 k = true := by
    rw [containsKey_resync]
    simpa using hmem
  simp only [SetLayer, hsel, hc, if_true, hcr, hdp]
  exact ⟨trivial, rfl⟩

/-- Witness for C2: with layer 1 selected, its entry in the store and the
store in sync with image data `[1]`, re-selecting layer 1 yields exactly
the detach/attach/signal trace. -/
theorem c2_reselect_not_noop_witness :
    ((⟨some 1, ⟨[⟨1, 5⟩], [1]⟩⟩ : ModelState Nat).props.entries.map Entry.key
        = [1] ∧ (1 : Key) ∈ [1]) ∧
    ((SetLayer (fun _ => 5)
        (⟨some 1, ⟨[⟨1, 5⟩], [1]⟩⟩ : ModelState Nat) (some 1)).1.layer
        = some 1 ∧
     (SetLayer (fun _ => 5)
        (⟨some 1, ⟨[⟨1, 5⟩], [1]⟩⟩ : ModelState Nat) (some 1)).2 =
       [Effect.unregister 1, Effect.register 1,
        Effect.activeLayerChanged]) :=
  ⟨⟨by decide, by decide⟩,
   c2_reselect_not_noop (fun _ => 5)
     (⟨some 1, ⟨[⟨1, 5⟩], [1]⟩⟩ : ModelState Nat) 1 rfl (by decide)
     (by decide)⟩

/-- C3 (amended): when a structural-change notification removes the
currently selected key, the store disposes that key's stale entry during
the resync and the detach for that key is skipped entirely: the effect
trace of `OnUpdate` contains the disposal and contains no
`UnRegisterFromLayer` call for the key at all — neither before nor after
the disposal. -/
theorem c3_dispose_skips_detach {V : Type} (create : Key → V)
    (s : ModelState V) (S : List Key) (k : Key)
    (hsel : s.layer = some k) (hstale : k ∉ S)
    (hpresent : k ∈ s.props.entries.map Entry.key) :
    Effect.disposeP k ∈ (OnUpdate create true S s).2 ∧
    Effect.unregister k ∉ (OnUpdate create true S s).2 := by
  have hc1 : containsKey (resync create s.props.entries S).1 k = false := by
    rw [containsKey_resync]
    simpa using hstale
  have hc2 : containsKey
      (resync create (resync create s.props.entries S).1 S).1 k = false := by
    rw [containsKey_resync]
    simpa using hstale
  have hd : k ∈ (resync create s.props.entries S).2.2 :=
    mem_disposed_resync.mpr ⟨containsKey_iff.mpr hpresent, hstale⟩
  have hdp : Effect.disposeP k ∈
      resyncLog (resync create s.props.entries S).2.1
        (resync create s.props.entries S).2.2 := by
    unfold resyncLog
    exact List.mem_append.mpr (Or.inr (List.mem_map.mpr ⟨k, hd, rfl⟩))
  simp only [OnUpdate, SetLayer, if_true, hsel, containsLayer, hc1, hc2,
    Bool.false_eq_true, if_false, List.append_nil]
  constructor
  · exact List.mem_append.mpr (Or.inl hdp)
  · intro hmem
    rcases List.mem_append.mp hmem with h | h
    · exact unregister_not_mem_resyncLog _ _ _ h
    · rcases List.mem_append.mp h with h2 | h2
      · exact unregister_not_mem_resyncLog _ _ _ h2
      · simp at h2

/-- Witness for C3: layer 1 selected with its entry present, structural
change to the empty set; the trace disposes the entry and never
unregisters. -/
theorem c3_dispose_skips_detach_witness :
    ((1 : Key) ∉ ([] : List Key) ∧
     (1 : Key) ∈ ((⟨some 1, ⟨[⟨1, 5⟩], [1]⟩⟩ :
        ModelState Nat)).props.entries.map Entry.key) ∧
    (Effect.disposeP 1 ∈ (OnUpdate (fun _ => 5) true []
        (⟨some 1, ⟨[⟨1, 5⟩], [1]⟩⟩ : ModelState Nat)).2 ∧
     Effect.unregister 1 ∉ (OnUpdate (fun _ => 5) true []
        (⟨some 1, ⟨[⟨1, 5⟩], [1]⟩⟩ : ModelState Nat)).2) :=
  ⟨⟨by decide, by decide⟩,
   c3_dispose_skips_detach (fun _ => 5)
     (⟨some 1, ⟨[⟨1, 5⟩], [1]⟩⟩ : ModelState Nat) [] 1 rfl (by decide)
     (by decide)⟩

/-- C4 (amended): `OnUpdate` always preserves the selection invariant
(a non-null active layer has an entry in the store), and `SetLayer`
preserves it provided its argument is NULL or a layer of the current
image data; calling `SetLayer` with a key outside the authoritative set
violates the invariant (see the counterexample). -/
theorem c4_invariant_preservation {V : Type} (create : Key → V) :
    (∀ (b : Bool) (S : List Key) (s : ModelState V), invB s = true →
        invB (OnUpdate create b S s).1 = true) ∧
    (∀ (s : ModelState V) (l : Option Key),
        (∀ k, l = some k → k ∈ s.props.imageData) →
        invB (SetLayer create s l).1 = true) := by
  constructor
  · intro b S s hinv
    cases b with
    | false => simpa [OnUpdate] using hinv
    | true =>
      cases hl : s.layer with
      | none =>
        simp only [OnUpdate, if_true, hl, containsLayer, Bool.false_eq_true,
          if_false, SetLayer, invB]
      | some k =>
        by_cases hc : containsKey (resync create s.props.entries S).1 k = true
        · simp only [OnUpdate, if_true, hl, containsLayer, hc, if_true, invB]
        · rw [Bool.not_eq_true] at hc
          simp only [OnUpdate, if_true, hl, containsLayer, hc,
            Bool.false_eq_true, if_false, SetLayer, invB]
  · intro s l hl
    cases l with
    | none => simp [SetLayer, invB]
    | some k =>
      have hk : containsKey
          (resync create s.props.entries s.props.imageData).1 k = true := by
        rw [containsKey_resync]
        simpa using hl k rfl
      simp only [SetLayer, invB]
      exact hk

/-- Witness for C4: `OnUpdate` keeps the invariant across a structural
change that replaces layer 1 by layer 2, and `SetLayer(1)` keeps it when
layer 1 is in the image data. -/
theorem c4_invariant_preservation_witness :
    (invB (⟨some 1, ⟨[⟨1, 5⟩], [1]⟩⟩ : ModelState Nat) = true ∧
     invB (OnUpdate (fun _ => 5) true [2]
        (⟨some 1, ⟨[⟨1, 5⟩], [1]⟩⟩ : ModelState Nat)).1 = true) ∧
    invB (SetLayer (fun _ => 5)
        (⟨none, ⟨[], [1]⟩⟩ : ModelState Nat) (some 1)).1 = true :=
  ⟨⟨by decide,
    (c4_invariant_preservation (fun _ => 5)).1 true [2] _ (by decide)⟩,
   (c4_invariant_preservation (fun _ => 5)).2
     (⟨none, ⟨[], [1]⟩⟩ : ModelState Nat) (some 1)
     (fun k h => by injection h with h2; subst h2; decide)⟩

/-- C6: after `resync(S)` the store's keys equal `S` exactly and in `S`'s
order (so the key set equals `set(S)` and iteration follows `S`); and when
`S` merely has the same membership as the current keys (e.g., a reorder),
the resync issues zero create and zero dispose calls. -/
theorem c6_resync_set_equality_and_order {V : Type} (create : Key → V)
    (E : List (Entry V)) (S : List Key) :
    ((resync create E S).1.map Entry.key = S) ∧
    ((∀ k, k ∈ S ↔ k ∈ E.map Entry.key) →
      (resync create E S).2.1 = [] ∧ (resync create E S).2.2 = []) := by
  refine ⟨keys_resync create E S, fun hperm => ⟨?_, ?_⟩⟩
  · apply created_resync_nil
    intro k hk
    rw [containsKey_iff]
    exact (hperm k).mp hk
  · apply disposed_resync_nil
    intro k hk
    exact (hperm k).mpr hk

/-- Witness for C6: resyncing a store holding keys `[1, 2]` to the
reordered sequence `[2, 1]` yields keys `[2, 1]` with no create and no
dispose calls. -/
theorem c6_resync_set_equality_and_order_witness :
    (∀ k : Key, k ∈ [2, 1] ↔
      k ∈ ([⟨1, 5⟩, ⟨2, 7⟩] : List (Entry Nat)).map Entry.key) ∧
    ((resync (fun _ => 0) ([⟨1, 5⟩, ⟨2, 7⟩] : List (Entry Nat))
        [2, 1]).1.map Entry.key = [2, 1] ∧
     ((resync (fun _ => 0) ([⟨1, 5⟩, ⟨2, 7⟩] : List (Entry Nat))
        [2, 1]).2.1 = [] ∧
      (resync (fun _ => 0) ([⟨1, 5⟩, ⟨2, 7⟩] : List (Entry Nat))
        [2, 1]).2.2 = [])) :=
  ⟨by intro k; simp; tauto,
   ⟨(c6_resync_set_equality_and_order (fun _ => 0) _ [2, 1]).1,
    (c6_resync_set_equality_and_order (fun _ => 0) _ [2, 1]).2
      (by intro k; simp; tauto)⟩⟩

/-- C8: resync is idempotent on effects: immediately repeating `resync(S)`
issues zero additional create calls and zero additional dispose calls. -/
theorem c8_resync_idempotent {V : Type} (create : Key → V)
    (E : List (Entry V)) (S : List Key) :
    (resync create (resync create E S).1 S).2.1 = [] ∧
    (resync create (resync create E S).1 S).2.2 = [] :=
  ⟨resync_resync_created create E S, resync_resync_disposed create E S⟩

theorem findEntry_cons_ne {V : Type} {e : Entry V} {E : List (Entry V)}
    {k : Key} (h : ¬ e.key = k) : findEntry (e :: E) k = findEntry E k := by
  simp [findEntry, List.find?_cons, h]

theorem containsKey_cons {V : Type} (e : Entry V) (E : List (Entry V))
    (j : Key) :
    containsKey (e :: E) j = (decide (e.key = j) || containsKey E j) := by
  cases hd : decide (e.key = j) <;>
    simp only [containsKey, findEntry, List.find?_cons, hd] <;> simp

theorem resyncE_flag {V : Type} (create : Key → Option V)
    (E : List (Entry V)) {S : List Key} {k : Key} (hmem : k ∈ S)
    (hfail : create k = none) (hfind : findEntry E k = none) :
    (resyncE create E S).2 = true := by
  induction S with
  | nil => simp at hmem
  | cons a rest ih =>
    rcases List.mem_cons.mp hmem with rfl | hmem2
    · simp [resyncE, hfind, hfail]
    · cases hf : findEntry E a with
      | some e => simpa [resyncE, hf] using ih hmem2
      | none =>
        cases hca : create a with
        | some v => simpa [resyncE, hf, hca] using ih hmem2
        | none => simp [resyncE, hf, hca]

theorem resyncE_failed_absent {V : Type} (create : Key → Option V)
    (E : List (Entry V)) (S : List Key) {k : Key}
    (hfail : create k = none) (hfind : findEntry E k = none) :
    findEntry (resyncE create E S).1 k = none := by
  induction S with
  | nil => simp [resyncE, findEntry]
  | cons a rest ih =>
    cases hf : findEntry E a with
    | some e =>
      have hek : ¬ e.key = k := by
        intro h
        rw [findEntry_key hf] at h
        rw [h] at hf
        rw [hf] at hfind
        exact Option.noConfusion hfind
      simp only [resyncE, hf]
      rw [findEntry_cons_ne hek]
      exact ih
    | none =>
      cases hca : create a with
      | some v =>
        have hak : ¬ (⟨a, v⟩ : Entry V).key = k := by
          intro h
          simp only at h
          rw [h] at hca
          rw [hca] at hfail
          exact Option.noConfusion hfail
        simp only [resyncE, hf, hca]
        rw [findEntry_cons_ne hak]
        exact ih
      | none =>
        simp only [resyncE, hf, hca]
        exact ih

theorem resyncE_retained {V : Type} (create : Key → Option V)
    (E : List (Entry V)) {S : List Key} {j : Key} (hj : j ∈ S)
    (hok : containsKey E j = true ∨ ∃ v, create j = some v) :
    containsKey (resyncE create E S).1 j = true := by
  induction S with
  | nil => simp at hj
  | cons a rest ih =>
    rcases List.mem_cons.mp hj with rfl | hj2
    · cases hf : findEntry E j with
      | some e =>
        simp only [resyncE, hf]
        rw [containsKey_cons]
        simp [findEntry_key hf]
      | none =>
        rcases hok with hok | ⟨v, hv⟩
        · rw [containsKey, hf] at hok
          exact absurd hok (by simp)
        · simp only [resyncE, hf, hv]
          rw [containsKey_cons]
          simp
    · have hrest := ih hj2
      cases hf : findEntry E a with
      | some e =>
        simp only [resyncE, hf]
        rw [containsKey_cons, hrest]
        simp
      | none =>
        cases hca : create a with
        | some v =>
          simp only [resyncE, hf, hca]
          rw [containsKey_cons, hrest]
          simp
        | none =>
          simp only [resyncE, hf, hca]
          exact hrest

/-- C9: when the factory's create fails (`ResourceExhausted`) for a key of
the authoritative sequence that is not already stored, the fallible resync
surfaces the error to the caller (error flag true, not swallowed), the
failed key's entry is never reachable via get (`findEntry` yields nothing),
every other requested key that is already stored or whose create succeeds
is retained, and in particular `resync [A]` on an empty store failing
inside `create A` leaves the store with zero entries. -/
theorem c9_create_failure_surfaced {V : Type} (create : Key → Option V)
    (E : List (Entry V)) (S : List Key) (k : Key)
    (hmem : k ∈ S) (hfail : create k = none)
    (habs : containsKey E k = false) :
    (resyncE create E S).2 = true ∧
    findEntry (resyncE create E S).1 k = none ∧
    (∀ j ∈ S, containsKey E j = true ∨ (∃ v, create j = some v) →
      containsKey (resyncE create E S).1 j = true) ∧
    (S = [k] → E = [] → (resyncE create E S).1 = []) := by
  have hfind : findEntry E k = none := by
    cases hf : findEntry E k with
    | none => rfl
    | some e =>
      rw [containsKey, hf] at habs
      exact absurd habs (by simp)
  refine ⟨resyncE_flag create E hmem hfail hfind,
    resyncE_failed_absent create E S hfail hfind,
    fun j hj hok => resyncE_retained create E hj hok, ?_⟩
  rintro rfl rfl
  simp [resyncE, findEntry, hfail]

/-- Witness for C9: `resyncE` over `[A] = [7]` on the empty store with an
always-failing factory surfaces the error and ends with zero entries, and
the failed key is unreachable. -/
theorem c9_create_failure_surfaced_witness :
    ((7 : Key) ∈ [7] ∧ (fun _ => (none : Option Nat)) 7 = none ∧
     containsKey ([] : List (Entry Nat)) 7 = false) ∧
    ((resyncE (fun _ => (none : Option Nat)) [] [7]).2 = true ∧
     findEntry (resyncE (fun _ => (none : Option Nat)) [] [7]).1 7 = none ∧
     (∀ j ∈ [7], containsKey ([] : List (Entry Nat)) j = true ∨
        (∃ v, (fun _ => (none : Option Nat)) j = some v) →
       containsKey (resyncE (fun _ => (none : Option Nat)) [] [7]).1 j
         = true) ∧
     (([7] : List Key) = [7] → ([] : List (Entry Nat)) = [] →
       (resyncE (fun _ => (none : Option Nat)) [] [7]).1 = [])) :=
  ⟨⟨by decide, rfl, by decide⟩,
   c9_create_failure_surfaced (fun _ => (none : Option Nat)) [] [7] 7
     (by decide) rfl (by decide)⟩

/-! ## Lifecycle machinery for C7 -/

theorem filterMap_if_single {l : List Key} {k : Key} (b : Bool)
    (hnd : l.Nodup) :
    l.filterMap (fun j => if j = k then some b else none) =
      if k ∈ l then [b] else [] := by
  induction l with
  | nil => rfl
  | cons a t ih =>
    rcases List.nodup_cons.mp hnd with ⟨hna, hnt⟩
    by_cases hak : a = k
    · subst hak
      simp only [List.filterMap_cons, if_pos rfl, List.mem_cons, true_or,
        if_true]
      rw [ih hnt]
      simp [hna]
    · simp only [List.filterMap_cons, if_neg hak]
      rw [ih hnt]
      by_cases hk : k ∈ t
      · simp [hk]
      · have hnm : ¬ k ∈ a :: t := by
          simp only [List.mem_cons]
          rintro (rfl | h)
          · exact hak rfl
          · exact hk h
        simp [hk, hnm]

theorem kEvents_append (k : Key) (l1 l2 : List Effect) :
    kEvents k (l1 ++ l2) = kEvents k l1 ++ kEvents k l2 := by
  simp [kEvents, List.filterMap_append]

theorem kEvents_map_createP {cr : List Key} {k : Key} (hnd : cr.Nodup) :
    kEvents k (cr.map Effect.createP) = if k ∈ cr then [true] else [] := by
  rw [kEvents, List.filterMap_map]
  exact filterMap_if_single true hnd

theorem kEvents_map_disposeP {dp : List Key} {k : Key} (hnd : dp.Nodup) :
    kEvents k (dp.map Effect.disposeP) = if k ∈ dp then [false] else [] := by
  rw [kEvents, List.filterMap_map]
  exact filterMap_if_single false hnd

theorem kEvents_resyncLog_step {V : Type} (create : Key → V)
    (E : List (Entry V)) (S : List Key) (k : Key)
    (hS : S.Nodup) (hE : (E.map Entry.key).Nodup) :
    kEvents k (resyncLog (resync create E S).2.1 (resync create E S).2.2) =
      (if decide (k ∈ S) && !(containsKey E k) then [true]
       else if !(decide (k ∈ S)) && containsKey E k then [false]
       else []) := by
  have hcr : (resync create E S).2.1.Nodup := List.Nodup.filter _ hS
  have hdp : (resync create E S).2.2.Nodup := List.Nodup.filter _ hE
  rw [resyncLog, kEvents_append, kEvents_map_createP hcr,
    kEvents_map_disposeP hdp]
  by_cases hm : k ∈ S <;> by_cases hc : containsKey E k = true
  · simp [mem_created_resync, mem_disposed_resync, hm, hc]
  · simp only [Bool.not_eq_true] at hc
    simp [mem_created_resync, mem_disposed_resync, hm, hc]
  · simp [mem_created_resync, mem_disposed_resync, hm, hc]
  · simp only [Bool.not_eq_true] at hc
    simp [mem_created_resync, mem_disposed_resync, hm, hc]

theorem nodup_keys_resync {V : Type} (create : Key → V) (E : List (Entry V))
    {S : List Key} (hS : S.Nodup) :
    ((resync create E S).1.map Entry.key).Nodup := by
  rw [keys_resync]
  exact hS

theorem kEvents_runResyncs {V : Type} (create : Key → V) (k : Key) :
    ∀ (Ss : List (List Key)) (E : List (Entry V)),
      (∀ S ∈ Ss, S.Nodup) → (E.map Entry.key).Nodup →
      kEvents k (runResyncs create E Ss).2 =
        edgeEvents (containsKey E k)
          (Ss.map (fun S => decide (k ∈ S))) := by
  intro Ss
  induction Ss with
  | nil => intro E _ _; rfl
  | cons S rest ih =>
    intro E hnd hE
    have hS : S.Nodup := hnd S (List.mem_cons_self S rest)
    have hrest : ∀ T ∈ rest, T.Nodup :=
      fun T hT => hnd T (List.mem_cons_of_mem S hT)
    simp only [runResyncs, List.map_cons]
    rw [kEvents_append, kEvents_resyncLog_step create E S k hS hE,
      ih (resync create E S).1 hrest (nodup_keys_resync create E hS),
      containsKey_resync]
    rfl

theorem edgeEvents_replicate_false (a : Nat) (ms : List Bool) :
    edgeEvents false (List.replicate a false ++ ms) = edgeEvents false ms := by
  induction a with
  | zero => rfl
  | succ n ih => simpa [List.replicate_succ, edgeEvents] using ih

theorem edgeEvents_replicate_true (b : Nat) (ms : List Bool) :
    edgeEvents true (List.replicate b true ++ ms) = edgeEvents true ms := by
  induction b with
  | zero => rfl
  | succ n ih => simpa [List.replicate_succ, edgeEvents] using ih

theorem edgeEvents_false_tail (c : Nat) :
    edgeEvents false (List.replicate c false) = [] := by
  have h := edgeEvents_replicate_false c []
  simpa using h

theorem edgeEvents_pulse (a b c : Nat) (hb : 1 ≤ b) (hc : 1 ≤ c) :
    edgeEvents false (List.replicate a false ++
      (List.replicate b true ++ List.replicate c false)) = [true, false] := by
  rw [edgeEvents_replicate_false]
  obtain ⟨b1, rfl⟩ : ∃ b1, b = b1 + 1 := ⟨b - 1, by omega⟩
  obtain ⟨c1, rfl⟩ : ∃ c1, c = c1 + 1 := ⟨c - 1, by omega⟩
  rw [List.replicate_succ, List.cons_append]
  show (if true && !false then [true]
    else if !true && false then [false] else []) ++
      edgeEvents true (List.replicate b1 true ++
        List.replicate (c1 + 1) false) = [true, false]
  rw [edgeEvents_replicate_true, List.replicate_succ]
  show [true] ++ ((if false && !true then [true]
    else if !false && true then [false] else []) ++
      edgeEvents false (List.replicate c1 false)) = [true, false]
  rw [edgeEvents_false_tail]
  rfl

/-- C7: exactly-once lifecycle.  For a key whose membership history across
a sequence of resyncs (starting from the empty store) is one continuous
presence period that later ends — absent for `a` steps, present for
`b ≥ 1` steps, absent again for `c ≥ 1` steps — the accumulated effect
trace contains exactly one factory create and exactly one factory dispose
for that key, with the create preceding the dispose
(`kEvents = [true, false]`). -/
theorem c7_exactly_once_lifecycle {V : Type} (create : Key → V)
    (Ss : List (List Key)) (k : Key) (a b c : Nat)
    (hb : 1 ≤ b) (hc : 1 ≤ c) (hnd : ∀ S ∈ Ss, S.Nodup)
    (hms : Ss.map (fun S => decide (k ∈ S)) =
      List.replicate a false ++ List.replicate b true ++
        List.replicate c false) :
    kEvents k (runResyncs create ([] : List (Entry V)) Ss).2 =
      [true, false] := by
  rw [kEvents_runResyncs create k Ss [] hnd (by simp)]
  have hcur : containsKey ([] : List (Entry V)) k = false := rfl
  rw [hcur, hms, List.append_assoc]
  exact edgeEvents_pulse a b c hb hc

/-- Witness for C7: key 5 enters at the first of three resyncs and leaves
at the third (history present, present, absent); the trace holds one
create followed by one dispose. -/
theorem c7_exactly_once_lifecycle_witness :
    (1 ≤ 2 ∧ 1 ≤ 1 ∧ (∀ S ∈ [[5], [5], ([] : List Key)], S.Nodup) ∧
     ([[5], [5], ([] : List Key)].map (fun S => decide ((5 : Key) ∈ S)) =
       List.replicate 0 false ++ List.replicate 2 true ++
         List.replicate 1 false)) ∧
    kEvents 5 (runResyncs (fun _ => (0 : Nat)) []
      [[5], [5], []]).2 = [true, false] :=
  ⟨⟨by decide, by decide, by decide, by decide⟩,
   c7_exactly_once_lifecycle (fun _ => (0 : Nat)) [[5], [5], []] 5 0 2 1
     (by decide) (by decide) (by decide) (by decide)⟩

end ItkSnap
